import Mathlib

/-!
Verification development for the LLVM derived-type subsystem declared in
include/llvm/DerivedTypes.h (IntegerType, FunctionType, StructType,
SequentialType with ArrayType / VectorType / PointerType, OpaqueType).

The header declares the classes and defines the inline methods; the
out-of-line behaviour (the uniquing registry backing the static get
factories, the abstract-type refinement protocol, getParamAttrs,
indexValid) lives in Type.cpp, which is not part of this snapshot, so
those parts are modelled from the specification and are marked as such in
their doc comments. Machine integers are modelled as Nat with explicit
reduction modulo 2 ^ 32 or 2 ^ 64 where C++ unsigned arithmetic wraps;
undefined behaviour (an out-of-range shift count) is modelled as Option.none.
-/

namespace LLVMTypes

/-- Minimum number of bits that can be specified: IntegerType::MIN_INT_BITS. -/
def MIN_INT_BITS : Nat := 1

/-- Maximum number of bits that can be specified: IntegerType::MAX_INT_BITS,
written (1<<23)-1 in the header because the width is stored in the 23-bit
SubclassData field. -/
def MAX_INT_BITS : Nat := (1 <<< 23) - 1

namespace IntegerType

/-- The value ~uint64_t(0UL): all 64 bits set. -/
def allOnes64 : Nat := 2 ^ 64 - 1

/-- The shift count 64 - getPrimitiveSizeInBits() of IntegerType::getBitMask.
Both operands are C++ unsigned (32-bit) values, so the subtraction wraps
modulo 2 ^ 32; it is modelled with Int subtraction followed by emod. -/
def shiftAmount (w : Nat) : Nat := ((64 - (w : Int)) % (2 : Int) ^ 32).toNat

/-- IntegerType::getBitMask from the header:
return ~uint64_t(0UL) >> (64-getPrimitiveSizeInBits()).
A 64-bit shift whose count is not below 64 is undefined behaviour in C++,
modelled as none. -/
def getBitMask (w : Nat) : Option Nat :=
  if shiftAmount w < 64 then some (allOnes64 >>> shiftAmount w) else none

end IntegerType

/-- The structural key (ValType) of each uniqued derived-type kind, per the
spec: bit width (integer); return type, ordered parameter types, varargs
flag and parameter attributes (function); ordered field types and packed
flag (struct); element type and count (array, vector); element type alone
(pointer). Component types are referenced by their canonical instance id. -/
inductive TypeKey
  | integerKey (numBits : Nat)
  | functionKey (result : Nat) (params : List Nat) (isVarArg : Bool) (attrs : List Nat)
  | structKey (params : List Nat) (isPacked : Bool)
  | arrayKey (elementType : Nat) (numElements : Nat)
  | vectorKey (elementType : Nat) (numElements : Nat)
  | pointerKey (elementType : Nat)
deriving DecidableEq

/-- The construction error of the integer factory. -/
inductive TypeError
  | InvalidWidth
deriving DecidableEq

/-- Modelled from the spec: the uniquing registry (TypeMap in the header,
implemented in Type.cpp, not part of this snapshot): a mapping from
structural key to the canonical instance, here an id, plus the next fresh
id. -/
structure TypeContext where
  registry : List (TypeKey × Nat)
  nextId : Nat
deriving DecidableEq

/-- Modelled from the spec: get(kind, structuralKey) returns the unique
canonical instance for that key, creating it if absent. -/
def TypeContext.getOrCreate (k : TypeKey) (ctx : TypeContext) : Nat × TypeContext :=
  match ctx.registry.lookup k with
  | some id => (id, ctx)
  | none => (ctx.nextId, ⟨(k, ctx.nextId) :: ctx.registry, ctx.nextId + 1⟩)

namespace Registry

/-- IntegerType::get, declared in the header and implemented in Type.cpp.
Modelled from the spec: a width outside [MIN_INT_BITS, MAX_INT_BITS] fails
with InvalidWidth, reported synchronously and never clamped; otherwise the
unique canonical instance for that width is returned through the registry. -/
def IntegerType.get (numBits : Nat) (ctx : TypeContext) :
    Except TypeError (Nat × TypeContext) :=
  if MIN_INT_BITS ≤ numBits ∧ numBits ≤ MAX_INT_BITS then
    Except.ok (TypeContext.getOrCreate (TypeKey.integerKey numBits) ctx)
  else
    Except.error TypeError.InvalidWidth

/-- FunctionType::get through the uniquing registry (modelled from the spec;
the implementation is in Type.cpp). -/
def FunctionType.get (result : Nat) (params : List Nat) (isVarArg : Bool)
    (attrs : List Nat) (ctx : TypeContext) : Nat × TypeContext :=
  TypeContext.getOrCreate (TypeKey.functionKey result params isVarArg attrs) ctx

/-- StructType::get through the uniquing registry (modelled from the spec). -/
def StructType.get (params : List Nat) (isPacked : Bool) (ctx : TypeContext) :
    Nat × TypeContext :=
  TypeContext.getOrCreate (TypeKey.structKey params isPacked) ctx

/-- ArrayType::get through the uniquing registry (modelled from the spec). -/
def ArrayType.get (elementType : Nat) (numElements : Nat) (ctx : TypeContext) :
    Nat × TypeContext :=
  TypeContext.getOrCreate (TypeKey.arrayKey elementType numElements) ctx

/-- VectorType::get through the uniquing registry (modelled from the spec). -/
def VectorType.get (elementType : Nat) (numElements : Nat) (ctx : TypeContext) :
    Nat × TypeContext :=
  TypeContext.getOrCreate (TypeKey.vectorKey elementType numElements) ctx

/-- PointerType::get through the uniquing registry (modelled from the spec). -/
def PointerType.get (elementType : Nat) (ctx : TypeContext) : Nat × TypeContext :=
  TypeContext.getOrCreate (TypeKey.pointerKey elementType) ctx

end Registry

/-- FunctionType::ParameterAttributes: NoAttributeSet = 0. -/
def NoAttributeSet : Nat := 0

/-- FunctionType::ParameterAttributes: ZExtAttribute = 1. -/
def ZExtAttribute : Nat := 1

/-- FunctionType::ParameterAttributes: SExtAttribute = 1 << 1. -/
def SExtAttribute : Nat := 1 <<< 1

/-- FunctionType::ParameterAttributes: NoReturnAttribute = 1 << 2. -/
def NoReturnAttribute : Nat := 1 <<< 2

/-- FunctionType::ParameterAttributes: InRegAttribute = 1 << 3. -/
def InRegAttribute : Nat := 1 <<< 3

/-- FunctionType::ParameterAttributes: StructRetAttribute = 1 << 4. -/
def StructRetAttribute : Nat := 1 <<< 4

/-- A FunctionType instance: the return type slot ContainedTys[0], the
parameter slots ContainedTys[1..], the isVarArgs flag and the ParamAttrs
list, whose 0th entry refers to the return type and whose entries 1..N
refer to the parameters. -/
structure FunctionType where
  result : Nat
  params : List Nat
  isVarArgs : Bool
  paramAttrs : List Nat
deriving DecidableEq

/-- FunctionType::getNumParams: ContainedTys.size() - 1, the number of
parameter slots. -/
def FunctionType.getNumParams (f : FunctionType) : Nat := f.params.length

/-- Modelled from the spec: FunctionType::getParamAttrs is declared in the
header and implemented in Type.cpp; per the spec it returns the attribute
bit-set stored at index i (0 = return type, 1..N = parameters), with no
attribute set when the list has no entry there. -/
def FunctionType.getParamAttrs (f : FunctionType) (i : Nat) : Nat :=
  f.paramAttrs.getD i NoAttributeSet

/-- FunctionType::paramHasAttr from the header:
return getParamAttrs(i) & attr. -/
def FunctionType.paramHasAttr (f : FunctionType) (i attr : Nat) : Bool :=
  (f.getParamAttrs i &&& attr) != 0

/-- FunctionType::isStructReturn from the header:
return (getNumParams() && paramHasAttr(1, StructRetAttribute)). -/
def FunctionType.isStructReturn (f : FunctionType) : Bool :=
  (f.getNumParams != 0) && f.paramHasAttr 1 StructRetAttribute

/-- A function with two parameters where only index 1 carries the
struct-return attribute. -/
def sretFn : FunctionType :=
  ⟨0, [5, 6], false, [NoAttributeSet, StructRetAttribute, NoAttributeSet]⟩

/-- The index value handed to getTypeAtIndex and indexValid by the
value/instruction layer: either integer-valued or not. -/
inductive IndexValue
  | intValue (v : Int)
  | nonIntValue
deriving DecidableEq

/-- The three sequential kinds: ArrayType (64-bit count), VectorType
(32-bit count), PointerType (no count). -/
inductive SeqKind
  | arrayKind (numElements : Nat)
  | vectorKind (numElements : Nat)
  | pointerKind
deriving DecidableEq

/-- A SequentialType: one contained element type, ContainedTys[0]. -/
structure SequentialType where
  kind : SeqKind
  elementType : Nat
deriving DecidableEq

/-- SequentialType::getElementType: return ContainedTys[0]. -/
def SequentialType.getElementType (s : SequentialType) : Nat := s.elementType

/-- SequentialType::getTypeAtIndex from the header: for sequential types
there is only one subtype, so it returns ContainedTys[0] whatever the
index value is. -/
def SequentialType.getTypeAtIndex (s : SequentialType) (V : IndexValue) : Nat :=
  s.elementType

/-- Modelled from the spec: SequentialType::indexValid is declared in the
header and implemented in Type.cpp; per the spec any integer-valued index
is structurally valid and bounds are a runtime concern. -/
def SequentialType.indexValid (s : SequentialType) (V : IndexValue) : Bool :=
  match V with
  | IndexValue.intValue _ => true
  | IndexValue.nonIntValue => false

/-- An element type as seen by getPrimitiveSizeInBits. -/
inductive ElemType
  | integerElem (numBits : Nat)
  | floatElem
  | doubleElem
  | nonPrimitiveElem
deriving DecidableEq

/-- Modelled from the spec: Type::getPrimitiveSizeInBits is declared on the
base Type in llvm/Type.h, which is not part of this snapshot; per the spec
it is the primitive-bit-size query, yielding the bit width for integer
types, 32 and 64 for the float kinds, and 0 for non-primitive kinds. -/
def ElemType.getPrimitiveSizeInBits : ElemType → Nat
  | ElemType.integerElem n => n
  | ElemType.floatElem => 32
  | ElemType.doubleElem => 64
  | ElemType.nonPrimitiveElem => 0

/-- A VectorType instance: element type plus the unsigned (32-bit)
NumElements field. -/
structure VectorType where
  elementType : ElemType
  numElements : Nat
deriving DecidableEq

/-- VectorType::get without the registry wiring: the constructor takes the
count as a C++ unsigned, so it is reduced modulo 2 ^ 32. -/
def VectorType.get (elementType : ElemType) (numElements : Nat) : VectorType :=
  ⟨elementType, numElements % 2 ^ 32⟩

/-- VectorType::getNumElements from the header. -/
def VectorType.getNumElements (v : VectorType) : Nat := v.numElements

/-- VectorType::getBitWidth from the header:
return NumElements * getElementType()->getPrimitiveSizeInBits();
an unsigned (32-bit) multiplication, so reduced modulo 2 ^ 32. -/
def VectorType.getBitWidth (v : VectorType) : Nat :=
  (v.numElements * v.elementType.getPrimitiveSizeInBits) % 2 ^ 32

namespace Graph

/-- The kind tag of a node of the type graph used by the refinement
protocol. -/
inductive RefKind
  | OpaqueKind
  | StructKind (isPacked : Bool)
  | PointerKind
  | ArrayKind (numElements : Nat)
  | VectorKind (numElements : Nat)
  | FunctionKind (isVarArgs : Bool)
  | IntegerKind (numBits : Nat)
deriving DecidableEq

/-- A node of the type graph: its kind and its contained-type handles, the
ordered ids its slots target. An OpaqueType node owns no contained-type
slots. -/
structure RefNode where
  kind : RefKind
  contained : List Nat
deriving DecidableEq

/-- The type graph: the live nodes keyed by id, plus the next fresh id. -/
structure RefCtx where
  nodes : List (Nat × RefNode)
  nextId : Nat
deriving DecidableEq

/-- Whether a node is an OpaqueType node. -/
def RefNode.isOpaqueNode (n : RefNode) : Bool :=
  match n.kind with
  | RefKind.OpaqueKind => true
  | _ => false

/-- Look a node up by id. -/
def RefCtx.lookupNode (ctx : RefCtx) (id : Nat) : Option RefNode :=
  ctx.nodes.lookup id

/-- Whether the id names a live OpaqueType node. -/
def RefCtx.isOpaqueAt (ctx : RefCtx) (t : Nat) : Bool :=
  match ctx.lookupNode t with
  | some n => n.isOpaqueNode
  | none => false

/-- Modelled from the spec: the observer set of a type, maintained by
(add|remove)AbstractTypeUser in Type.cpp; per the spec membership is
exactly "currently holds a contained-type handle pointing at this
type". -/
def RefCtx.observers (ctx : RefCtx) (t : Nat) : List Nat :=
  (ctx.nodes.filter (fun p => decide (t ∈ p.2.contained))).map (fun p => p.1)

/-- Retarget every contained-type handle of one node from oldTy to newTy. -/
def refineNode (n : RefNode) (oldTy newTy : Nat) : RefNode :=
  ⟨n.kind, n.contained.map (fun c => if c = oldTy then newTy else c)⟩

/-- Modelled from the spec: DerivedType::refineAbstractTypeTo is declared in
the header and implemented in Type.cpp; per the spec every observer
retargets each contained-type handle that pointed at the refined type to
point at the new type, the refined type's observer set is then empty, and
if the refined type is an OpaqueType it is deleted. -/
def RefCtx.refineAbstractTypeTo (ctx : RefCtx) (t newTy : Nat) : RefCtx :=
  let retargeted := ctx.nodes.map (fun p => (p.1, refineNode p.2 t newTy))
  if ctx.isOpaqueAt t then
    ⟨retargeted.filter (fun p => p.1 != t), ctx.nextId⟩
  else
    ⟨retargeted, ctx.nextId⟩

/-- Whether an OpaqueType node is reachable from the id through
contained-type handles within the given fuel (number of steps). -/
def RefCtx.reachesOpaque (ctx : RefCtx) : Nat → Nat → Bool
  | 0, _ => false
  | fuel + 1, id =>
    match ctx.lookupNode id with
    | none => false
    | some n => n.isOpaqueNode || n.contained.any (fun c => ctx.reachesOpaque fuel c)

/-- Modelled from the spec: Type::isAbstract; per the spec a type is
abstract when it is directly opaque or transitively contains an abstract
component, so exactly when an OpaqueType node is reachable from it. A
simple path visits at most as many nodes as the graph holds, so the node
count bounds the search. -/
def RefCtx.isAbstract (ctx : RefCtx) (id : Nat) : Bool :=
  ctx.reachesOpaque ctx.nodes.length id

/-- OpaqueType::get from the header: return new OpaqueType(), a fresh node
each call, never consulting the uniquing registry; the new node owns no
contained-type slots. -/
def OpaqueType.get (ctx : RefCtx) : Nat × RefCtx :=
  (ctx.nextId, ⟨(ctx.nextId, ⟨RefKind.OpaqueKind, []⟩) :: ctx.nodes, ctx.nextId + 1⟩)

/-- Well-formed graph: every live id is below the fresh-id counter. -/
def RefCtx.WF (ctx : RefCtx) : Prop :=
  ∀ p ∈ ctx.nodes, p.1 < ctx.nextId

/-- The unrecoverable outcome of the abort() calls in the header. -/
inductive ProtocolFatal
  | abortCalled
deriving DecidableEq

/-- The AbstractTypeUser virtual refineAbstractType, dispatched on the node
kind: OpaqueType::refineAbstractType in the header is abort(), an
unrecoverable error; the composite kinds retarget their handles. -/
def RefNode.refineAbstractType (n : RefNode) (oldTy newTy : Nat) :
    Except ProtocolFatal RefNode :=
  match n.kind with
  | RefKind.OpaqueKind => Except.error ProtocolFatal.abortCalled
  | _ => Except.ok (refineNode n oldTy newTy)

/-- The AbstractTypeUser virtual typeBecameConcrete, dispatched on the node
kind: OpaqueType::typeBecameConcrete in the header is abort(), an
unrecoverable error; the composite kinds keep their handles unchanged. -/
def RefNode.typeBecameConcrete (n : RefNode) (absTy : Nat) :
    Except ProtocolFatal RefNode :=
  match n.kind with
  | RefKind.OpaqueKind => Except.error ProtocolFatal.abortCalled
  | _ => Except.ok n

/-- The cyclic-resolution scenario before refinement: an OpaqueType O at
id 0, PointerType.get(O) at id 1, and StructType S = { pointer } at id 2. -/
def ctxCyclic : RefCtx :=
  ⟨[(0, ⟨RefKind.OpaqueKind, []⟩),
    (1, ⟨RefKind.PointerKind, [0]⟩),
    (2, ⟨RefKind.StructKind false, [1]⟩)], 3⟩

/-- The cyclic-resolution scenario after O.refineAbstractTypeTo(S). -/
def ctxResolved : RefCtx := ctxCyclic.refineAbstractTypeTo 0 2

end Graph

/-! ## Registry lemmas -/

theorem getOrCreate_lookup (k : TypeKey) (ctx : TypeContext) :
    (TypeContext.getOrCreate k ctx).2.registry.lookup k =
      some (TypeContext.getOrCreate k ctx).1 := by
  unfold TypeContext.getOrCreate
  cases h : ctx.registry.lookup k with
  | some id => simp [h]
  | none => simp [h, List.lookup]

theorem getOrCreate_getOrCreate (k : TypeKey) (ctx : TypeContext) :
    TypeContext.getOrCreate k (TypeContext.getOrCreate k ctx).2 =
      TypeContext.getOrCreate k ctx := by
  have h := getOrCreate_lookup k ctx
  cases hfst : TypeContext.getOrCreate k ctx with
  | mk id c =>
    rw [hfst] at h
    unfold TypeContext.getOrCreate
    simp only [h]

/-- C1: for every derived-type factory and all valid structural arguments,
two calls with structurally equal arguments return the identical canonical
instance: the second call returns the same instance id and leaves the
registry unchanged. -/
theorem factory_uniquing (ctx : TypeContext) (numBits result elementType : Nat)
    (params fields attrs : List Nat) (isVarArg isPacked : Bool)
    (numElements numElements64 : Nat) :
    (∀ id c, Registry.IntegerType.get numBits ctx = Except.ok (id, c) →
        Registry.IntegerType.get numBits c = Except.ok (id, c)) ∧
    Registry.FunctionType.get result params isVarArg attrs
        (Registry.FunctionType.get result params isVarArg attrs ctx).2 =
      Registry.FunctionType.get result params isVarArg attrs ctx ∧
    Registry.StructType.get fields isPacked
        (Registry.StructType.get fields isPacked ctx).2 =
      Registry.StructType.get fields isPacked ctx ∧
    Registry.ArrayType.get elementType numElements64
        (Registry.ArrayType.get elementType numElements64 ctx).2 =
      Registry.ArrayType.get elementType numElements64 ctx ∧
    Registry.VectorType.get elementType numElements
        (Registry.VectorType.get elementType numElements ctx).2 =
      Registry.VectorType.get elementType numElements ctx ∧
    Registry.PointerType.get elementType
        (Registry.PointerType.get elementType ctx).2 =
      Registry.PointerType.get elementType ctx := by
  refine ⟨?_, getOrCreate_getOrCreate _ _, getOrCreate_getOrCreate _ _,
    getOrCreate_getOrCreate _ _, getOrCreate_getOrCreate _ _,
    getOrCreate_getOrCreate _ _⟩
  intro id c h
  rw [Registry.IntegerType.get] at h ⊢
  by_cases hcond : MIN_INT_BITS ≤ numBits ∧ numBits ≤ MAX_INT_BITS
  · rw [if_pos hcond] at h
    rw [if_pos hcond]
    have h1 : TypeContext.getOrCreate (TypeKey.integerKey numBits) ctx = (id, c) := by
      injection h
    have h2 : (TypeContext.getOrCreate (TypeKey.integerKey numBits) ctx).2 = c := by
      rw [h1]
    rw [← h2, getOrCreate_getOrCreate, h1]
  · rw [if_neg hcond] at h
    exact absurd h (by simp)

/-- C3: IntegerType.get fails with InvalidWidth, synchronously and never
clamped, exactly when the width is outside [1, 2^23 - 1]; in particular
get(0) and get(2^23) fail while get(1) and get(2^23 - 1) succeed, and a
successful call records the canonical instance under exactly the requested
width. -/
theorem IntegerType_get_width_bounds (ctx : TypeContext) (numBits : Nat) :
    (Registry.IntegerType.get numBits ctx = Except.error TypeError.InvalidWidth ↔
      numBits < 1 ∨ 2 ^ 23 - 1 < numBits) ∧
    (∀ id c, Registry.IntegerType.get numBits ctx = Except.ok (id, c) →
        c.registry.lookup (TypeKey.integerKey numBits) = some id) ∧
    Registry.IntegerType.get 0 ctx = Except.error TypeError.InvalidWidth ∧
    Registry.IntegerType.get (2 ^ 23) ctx = Except.error TypeError.InvalidWidth ∧
    (∃ r, Registry.IntegerType.get 1 ctx = Except.ok r) ∧
    (∃ r, Registry.IntegerType.get (2 ^ 23 - 1) ctx = Except.ok r) := by
  have hmin : MIN_INT_BITS = 1 := rfl
  have hmax : MAX_INT_BITS = 2 ^ 23 - 1 := by decide
  refine ⟨?_, ?_, ?_, ?_, ?_, ?_⟩
  · rw [Registry.IntegerType.get]
    by_cases hcond : MIN_INT_BITS ≤ numBits ∧ numBits ≤ MAX_INT_BITS
    · rw [if_pos hcond]
      rw [hmin, hmax] at hcond
      constructor
      · intro h
        exact absurd h (by simp)
      · intro h
        exact absurd h (by omega)
    · rw [if_neg hcond]
      rw [hmin, hmax] at hcond
      exact ⟨fun _ => by omega, fun _ => rfl⟩
  · intro id c h
    rw [Registry.IntegerType.get] at h
    by_cases hcond : MIN_INT_BITS ≤ numBits ∧ numBits ≤ MAX_INT_BITS
    · rw [if_pos hcond] at h
      have h1 : TypeContext.getOrCreate (TypeKey.integerKey numBits) ctx = (id, c) := by
        injection h
      have := getOrCreate_lookup (TypeKey.integerKey numBits) ctx
      rw [h1] at this
      exact this
    · rw [if_neg hcond] at h
      exact absurd h (by simp)
  · rw [Registry.IntegerType.get, if_neg (by rw [hmin, hmax]; omega)]
  · rw [Registry.IntegerType.get, if_neg (by rw [hmin, hmax]; omega)]
  · exact ⟨_, by rw [Registry.IntegerType.get, if_pos (by rw [hmin, hmax]; omega)]⟩
  · exact ⟨_, by rw [Registry.IntegerType.get, if_pos (by rw [hmin, hmax]; omega)]⟩

/-! ## Bit-mask lemmas -/

theorem shiftAmount_of_le (w : Nat) (h : w ≤ 64) :
    IntegerType.shiftAmount w = 64 - w := by
  unfold IntegerType.shiftAmount
  have h32 : (2 : Int) ^ 32 = 4294967296 := by norm_num
  rw [h32]
  omega

theorem shiftAmount_of_gt (w : Nat) (h : 64 < w) (h2 : w ≤ MAX_INT_BITS) :
    64 ≤ IntegerType.shiftAmount w := by
  unfold IntegerType.shiftAmount
  have h32 : (2 : Int) ^ 32 = 4294967296 := by norm_num
  have hm : MAX_INT_BITS = 8388607 := by decide
  rw [hm] at h2
  rw [h32]
  omega

theorem allOnes_shiftRight (k : Nat) (h : k ≤ 64) :
    IntegerType.allOnes64 >>> k = 2 ^ (64 - k) - 1 := by
  rw [Nat.shiftRight_eq_div_pow, IntegerType.allOnes64]
  have hsplit : (2 : Nat) ^ (64 - k) * 2 ^ k = 2 ^ 64 := by
    rw [← pow_add]
    congr 1
    omega
  have h1 : (1 : Nat) ≤ 2 ^ k := Nat.one_le_two_pow
  have h2 : (1 : Nat) ≤ 2 ^ (64 - k) := Nat.one_le_two_pow
  apply Nat.div_eq_of_lt_le
  · rw [Nat.sub_mul, one_mul, hsplit]
    omega
  · have hstep : (2 ^ (64 - k) - 1 + 1) * 2 ^ k = 2 ^ 64 := by
      rw [Nat.sub_add_cancel h2, hsplit]
    omega

theorem getBitMask_eq_of_le (w : Nat) (h1 : 1 ≤ w) (h2 : w ≤ 64) :
    IntegerType.getBitMask w = some (2 ^ w - 1) := by
  rw [IntegerType.getBitMask, shiftAmount_of_le w h2, if_pos (by omega),
    allOnes_shiftRight (64 - w) (by omega)]
  have hw : 64 - (64 - w) = w := by omega
  rw [hw]

/-- C4 counterexample: the claim fails at width 65, a constructible
IntegerType width; there the shift count 64 - 65 wraps to 2^32 - 1, out of
range for a 64-bit shift, so getBitMask is undefined rather than the
claimed 2^65 - 1. -/
theorem getBitMask_claim_false_at_65 :
    ¬ IntegerType.getBitMask 65 = some (2 ^ 65 - 1) := by decide

/-- C4 (amended): for every IntegerType whose width lies in [1, 64],
getBitMask() returns the 64-bit value whose low width bits are all set,
2^width - 1, computed as all-ones shifted right by 64 - width; in
particular width 8 gives 0xFF and width 16 gives 0xFFFF. -/
theorem getBitMask_low_width (w : Nat) (h1 : 1 ≤ w) (h2 : w ≤ 64) :
    IntegerType.getBitMask w = some (2 ^ w - 1) ∧
    IntegerType.getBitMask 8 = some 0xFF ∧
    IntegerType.getBitMask 16 = some 0xFFFF :=
  ⟨getBitMask_eq_of_le w h1 h2, by decide, by decide⟩

theorem getBitMask_low_width_witness :
    ((1 : Nat) ≤ 8 ∧ (8 : Nat) ≤ 64) ∧ IntegerType.getBitMask 8 = some (2 ^ 8 - 1) :=
  ⟨⟨by decide, by decide⟩, (getBitMask_low_width 8 (by decide) (by decide)).1⟩

/-- C10: getBitMask is well-defined exactly for widths in [1, 64]: there
the shift amount 64 - width lies in [0, 63] and the result is 2^width - 1;
for every constructible width above 64 the wrapped shift amount is at
least 64, outside the valid range for a 64-bit shift, and the result is
undefined. -/
theorem getBitMask_defined_iff (w : Nat) (h1 : 1 ≤ w) (h2 : w ≤ MAX_INT_BITS) :
    (w ≤ 64 → IntegerType.shiftAmount w = 64 - w ∧ IntegerType.shiftAmount w < 64 ∧
      IntegerType.getBitMask w = some (2 ^ w - 1)) ∧
    (64 < w → 64 ≤ IntegerType.shiftAmount w ∧ IntegerType.getBitMask w = none) := by
  constructor
  · intro h
    refine ⟨shiftAmount_of_le w h, ?_, getBitMask_eq_of_le w h1 h⟩
    rw [shiftAmount_of_le w h]
    omega
  · intro h
    have hs := shiftAmount_of_gt w h h2
    exact ⟨hs, by rw [IntegerType.getBitMask, if_neg (by omega)]⟩

theorem getBitMask_defined_iff_witness :
    ((1 : Nat) ≤ 100 ∧ (100 : Nat) ≤ MAX_INT_BITS ∧ (64 : Nat) < 100) ∧
    (64 ≤ IntegerType.shiftAmount 100 ∧ IntegerType.getBitMask 100 = none) :=
  ⟨⟨by decide, by decide, by decide⟩,
    (getBitMask_defined_iff 100 (by decide) (by decide)).2 (by decide)⟩

/-! ## Type-graph lemmas -/

theorem lookup_map_refine (t newTy o : Nat) (l : List (Nat × Graph.RefNode)) :
    List.lookup o (l.map (fun p => (p.1, Graph.refineNode p.2 t newTy))) =
      Option.map (fun nd => Graph.refineNode nd t newTy) (List.lookup o l) := by
  induction l with
  | nil => rfl
  | cons a l ih =>
    cases a with
    | mk k v =>
      simp only [List.map, List.lookup]
      cases hok : o == k with
      | true => rfl
      | false => exact ih

theorem lookup_filter_ne {β : Type} (t o : Nat) (l : List (Nat × β)) (h : o ≠ t) :
    List.lookup o (l.filter (fun p => p.1 != t)) = List.lookup o l := by
  induction l with
  | nil => rfl
  | cons a l ih =>
    by_cases hk : a.1 = t
    · have hdrop : (a.1 != t) = false := by simp [hk]
      have hne : (o == a.1) = false := by
        simp only [beq_eq_false_iff_ne, ne_eq]
        rw [hk]
        exact h
      cases a with
      | mk k v =>
        simp only [List.filter, hdrop, List.lookup]
        simp only at hne
        rw [hne, ih]
    · have hkeep : (a.1 != t) = true := by simp [hk]
      cases a with
      | mk k v =>
        simp only [List.filter, hkeep, List.lookup]
        cases hok : o == k with
        | true => rfl
        | false => exact ih

theorem lookup_filter_self {β : Type} (t : Nat) (l : List (Nat × β)) :
    List.lookup t (l.filter (fun p => p.1 != t)) = none := by
  induction l with
  | nil => rfl
  | cons a l ih =>
    by_cases hk : a.1 = t
    · have hdrop : (a.1 != t) = false := by simp [hk]
      cases a with
      | mk k v =>
        simp only [List.filter, hdrop]
        exact ih
    · have hkeep : (a.1 != t) = true := by simp [hk]
      have hne : (t == a.1) = false := by
        simp only [beq_eq_false_iff_ne, ne_eq]
        intro heq
        exact hk heq.symm
      cases a with
      | mk k v =>
        simp only [List.filter, hkeep, List.lookup]
        simp only at hne
        rw [hne]
        exact ih

theorem lookup_none_of_lt {β : Type} (n : Nat) (l : List (Nat × β))
    (h : ∀ p ∈ l, p.1 < n) : List.lookup n l = none := by
  induction l with
  | nil => rfl
  | cons a l ih =>
    have ha : a.1 < n := h a (by simp)
    have hne : (n == a.1) = false := by
      simp only [beq_eq_false_iff_ne, ne_eq]
      omega
    cases a with
    | mk k v =>
      simp only [List.lookup]
      simp only at hne
      rw [hne]
      exact ih fun p hp => h p (by simp [hp])

theorem not_mem_refineNode (t newTy : Nat) (hne : newTy ≠ t) (nd : Graph.RefNode) :
    t ∉ (Graph.refineNode nd t newTy).contained := by
  rw [Graph.refineNode]
  simp only [List.mem_map, not_exists]
  rintro c ⟨hc, he⟩
  by_cases hct : c = t
  · rw [if_pos hct] at he
    exact hne he
  · rw [if_neg hct] at he
    exact hct he

theorem observers_eq_nil_of_not_mem (ctx : Graph.RefCtx) (t : Nat)
    (h : ∀ p ∈ ctx.nodes, t ∉ p.2.contained) : ctx.observers t = [] := by
  rw [Graph.RefCtx.observers]
  have hfil : ctx.nodes.filter (fun p => decide (t ∈ p.2.contained)) = [] := by
    rw [List.filter_eq_nil_iff]
    intro p hp
    simpa using h p hp
  rw [hfil]
  rfl

theorem mem_refined_nodes (ctx : Graph.RefCtx) (t newTy : Nat)
    (p : Nat × Graph.RefNode)
    (hp : p ∈ ctx.nodes.map (fun q => (q.1, Graph.refineNode q.2 t newTy)))
    (hne : newTy ≠ t) : t ∉ p.2.contained := by
  obtain ⟨q, _, hq⟩ := List.mem_map.1 hp
  rw [← hq]
  exact not_mem_refineNode t newTy hne q.2

/-- C2: after refineAbstractTypeTo(newType) on an abstract type T, every
node that held a contained-type handle targeting T has that handle
retargeted to newType, T's observer set is empty, and if T is an
OpaqueType its node has been deleted. The cyclic-resolution instance is
checked by the witness: refining an OpaqueType O into the struct
S = \x7b pointer-to-O \x7d leaves S's field a pointer to S itself and S
concrete. -/
theorem refineAbstractTypeTo_spec (ctx : Graph.RefCtx) (t newTy : Nat)
    (habs : ctx.isAbstract t = true) (hne : newTy ≠ t) :
    (∀ o nd, ctx.lookupNode o = some nd → o ≠ t →
        (ctx.refineAbstractTypeTo t newTy).lookupNode o =
          some (Graph.refineNode nd t newTy)) ∧
    (ctx.refineAbstractTypeTo t newTy).observers t = [] ∧
    (ctx.isOpaqueAt t = true →
        (ctx.refineAbstractTypeTo t newTy).lookupNode t = none) := by
  rw [Graph.RefCtx.refineAbstractTypeTo]
  cases hop : ctx.isOpaqueAt t with
  | false =>
    simp only [Bool.false_eq_true, if_false]
    refine ⟨?_, ?_, ?_⟩
    · intro o nd hlk _
      rw [Graph.RefCtx.lookupNode]
      show List.lookup o (ctx.nodes.map (fun p => (p.1, Graph.refineNode p.2 t newTy))) = _
      rw [lookup_map_refine]
      rw [Graph.RefCtx.lookupNode] at hlk
      rw [hlk]
      rfl
    · exact observers_eq_nil_of_not_mem _ t fun p hp =>
        mem_refined_nodes ctx t newTy p hp hne
    · intro hcontra
      exact hcontra.elim
  | true =>
    simp only [if_true]
    refine ⟨?_, ?_, ?_⟩
    · intro o nd hlk ho
      rw [Graph.RefCtx.lookupNode]
      show List.lookup o
          ((ctx.nodes.map (fun p => (p.1, Graph.refineNode p.2 t newTy))).filter
            (fun p => p.1 != t)) = _
      rw [lookup_filter_ne t o _ ho, lookup_map_refine]
      rw [Graph.RefCtx.lookupNode] at hlk
      rw [hlk]
      rfl
    · refine observers_eq_nil_of_not_mem _ t fun p hp => ?_
      have hp2 := (List.mem_filter.1 hp).1
      exact mem_refined_nodes ctx t newTy p hp2 hne
    · intro _
      rw [Graph.RefCtx.lookupNode]
      show List.lookup t
          ((ctx.nodes.map (fun p => (p.1, Graph.refineNode p.2 t newTy))).filter
            (fun p => p.1 != t)) = none
      exact lookup_filter_self t _

theorem refineAbstractTypeTo_spec_witness :
    (Graph.ctxCyclic.isAbstract 0 = true ∧ (2 : Nat) ≠ 0) ∧
    (Graph.ctxResolved.observers 0 = [] ∧ Graph.ctxResolved.lookupNode 0 = none) ∧
    (Graph.ctxResolved.lookupNode 1 = some ⟨Graph.RefKind.PointerKind, [2]⟩ ∧
      Graph.ctxResolved.lookupNode 2 = some ⟨Graph.RefKind.StructKind false, [1]⟩) ∧
    (Graph.ctxCyclic.isAbstract 2 = true ∧ Graph.ctxResolved.isAbstract 2 = false) :=
  ⟨⟨by decide, by decide⟩,
    ⟨(refineAbstractTypeTo_spec Graph.ctxCyclic 0 2 (by decide) (by decide)).2.1,
      (refineAbstractTypeTo_spec Graph.ctxCyclic 0 2 (by decide) (by decide)).2.2
        (by decide)⟩,
    ⟨by decide, by decide⟩, ⟨by decide, by decide⟩⟩

theorem isAbstract_of_lookup_OpaqueKind (c : Graph.RefCtx) (id : Nat)
    (cs : List Nat)
    (h : c.lookupNode id = some ⟨Graph.RefKind.OpaqueKind, cs⟩) :
    c.isAbstract id = true := by
  obtain ⟨m, hm⟩ : ∃ m, c.nodes.length = m + 1 := by
    cases hn : c.nodes with
    | nil =>
      rw [Graph.RefCtx.lookupNode, hn] at h
      exact absurd h (by simp [List.lookup])
    | cons a l => exact ⟨l.length, by simp⟩
  rw [Graph.RefCtx.isAbstract, hm, Graph.RefCtx.reachesOpaque, h]
  rfl

/-- C8: OpaqueType instances are never uniqued: each call to the factory
allocates a fresh instance distinct from every existing one and from the
result of every other call, the instance has no contained types, and
isAbstract() is true for every live OpaqueType instance. -/
theorem OpaqueType_get_fresh (ctx : Graph.RefCtx) (h : ctx.WF) :
    (Graph.OpaqueType.get ctx).1 ≠
      (Graph.OpaqueType.get (Graph.OpaqueType.get ctx).2).1 ∧
    ctx.lookupNode (Graph.OpaqueType.get ctx).1 = none ∧
    (Graph.OpaqueType.get ctx).2.lookupNode (Graph.OpaqueType.get ctx).1 =
      some ⟨Graph.RefKind.OpaqueKind, []⟩ ∧
    (Graph.OpaqueType.get ctx).2.isAbstract (Graph.OpaqueType.get ctx).1 = true ∧
    (∀ (c : Graph.RefCtx) (id : Nat) (cs : List Nat),
        c.lookupNode id = some ⟨Graph.RefKind.OpaqueKind, cs⟩ →
          c.isAbstract id = true) := by
  have hlk : (Graph.OpaqueType.get ctx).2.lookupNode (Graph.OpaqueType.get ctx).1 =
      some ⟨Graph.RefKind.OpaqueKind, []⟩ := by
    rw [Graph.OpaqueType.get, Graph.RefCtx.lookupNode]
    simp [List.lookup]
  refine ⟨by simp [Graph.OpaqueType.get], ?_, hlk, ?_, isAbstract_of_lookup_OpaqueKind⟩
  · rw [Graph.RefCtx.lookupNode]
    exact lookup_none_of_lt ctx.nextId ctx.nodes h
  · exact isAbstract_of_lookup_OpaqueKind _ _ [] hlk

theorem OpaqueType_get_fresh_witness :
    Graph.RefCtx.WF ⟨[], 5⟩ ∧
    ((Graph.OpaqueType.get ⟨[], 5⟩).1 ≠
        (Graph.OpaqueType.get (Graph.OpaqueType.get ⟨[], 5⟩).2).1 ∧
      (Graph.OpaqueType.get ⟨[], 5⟩).2.isAbstract (Graph.OpaqueType.get ⟨[], 5⟩).1 =
        true) :=
  ⟨fun p hp => absurd hp (List.not_mem_nil p),
    ⟨(OpaqueType_get_fresh ⟨[], 5⟩ fun p hp => absurd hp (List.not_mem_nil p)).1,
      (OpaqueType_get_fresh ⟨[], 5⟩
        fun p hp => absurd hp (List.not_mem_nil p)).2.2.2.1⟩⟩

/-- C9: the observer callbacks refineAbstractType and typeBecameConcrete on
an OpaqueType instance are fatal: for all arguments the call aborts, an
unrecoverable error, and never returns normally. -/
theorem OpaqueType_callbacks_abort (n : Graph.RefNode) (oldTy newTy absTy : Nat)
    (h : n.kind = Graph.RefKind.OpaqueKind) :
    n.refineAbstractType oldTy newTy = Except.error Graph.ProtocolFatal.abortCalled ∧
    n.typeBecameConcrete absTy = Except.error Graph.ProtocolFatal.abortCalled ∧
    (∀ r, n.refineAbstractType oldTy newTy ≠ Except.ok r) ∧
    (∀ r, n.typeBecameConcrete absTy ≠ Except.ok r) := by
  have h1 : n.refineAbstractType oldTy newTy =
      Except.error Graph.ProtocolFatal.abortCalled := by
    rw [Graph.RefNode.refineAbstractType, h]
  have h2 : n.typeBecameConcrete absTy =
      Except.error Graph.ProtocolFatal.abortCalled := by
    rw [Graph.RefNode.typeBecameConcrete, h]
  exact ⟨h1, h2, fun r hr => by rw [h1] at hr; exact absurd hr (by simp),
    fun r hr => by rw [h2] at hr; exact absurd hr (by simp)⟩

theorem OpaqueType_callbacks_abort_witness :
    (Graph.RefNode.mk Graph.RefKind.OpaqueKind []).kind = Graph.RefKind.OpaqueKind ∧
    (Graph.RefNode.mk Graph.RefKind.OpaqueKind []).refineAbstractType 0 1 =
      Except.error Graph.ProtocolFatal.abortCalled :=
  ⟨rfl, (OpaqueType_callbacks_abort ⟨Graph.RefKind.OpaqueKind, []⟩ 0 1 2 rfl).1⟩

/-- C5: isStructReturn() holds exactly when the function has at least one
parameter and parameter index 1 carries the StructRetAttribute;
paramHasAttr is the bitwise test on getParamAttrs with index 0 the return
type and 1..N the parameters; for a two-parameter function where only
index 1 carries StructRetAttribute, paramHasAttr(1) is true and
paramHasAttr(2) is false. -/
theorem isStructReturn_spec (f : FunctionType) (i attr : Nat) :
    (f.isStructReturn = true ↔
      0 < f.getNumParams ∧ f.paramHasAttr 1 StructRetAttribute = true) ∧
    (f.paramHasAttr i attr = true ↔ f.getParamAttrs i &&& attr ≠ 0) ∧
    sretFn.getNumParams = 2 ∧
    sretFn.isStructReturn = true ∧
    sretFn.paramHasAttr 1 StructRetAttribute = true ∧
    sretFn.paramHasAttr 2 StructRetAttribute = false := by
  refine ⟨?_, ?_, by decide, by decide, by decide, by decide⟩
  · rw [FunctionType.isStructReturn, Bool.and_eq_true, bne_iff_ne]
    rw [Nat.pos_iff_ne_zero]
  · rw [FunctionType.paramHasAttr, bne_iff_ne]

/-- C6: for every SequentialType (array, vector or pointer kind) and every
integer-valued index value, indexValid is true and getTypeAtIndex returns
the single element type, independently of the numeric index value; bounds
are not checked at the type level. -/
theorem sequential_indexing (s : SequentialType) (i : Int) (V : IndexValue) :
    s.indexValid (IndexValue.intValue i) = true ∧
    s.getTypeAtIndex (IndexValue.intValue i) = s.getElementType ∧
    s.getTypeAtIndex V = s.getElementType ∧
    s.indexValid IndexValue.nonIntValue = false :=
  ⟨rfl, rfl, rfl, rfl⟩

/-- C7: VectorType's getBitWidth is the element count times the element
type's primitive size in bits, computed in 32-bit unsigned arithmetic over
the 32-bit element count; in particular a 4-element vector of 32-bit
integers has bit width 128. -/
theorem VectorType_getBitWidth_spec (e : ElemType) (n : Nat) :
    (VectorType.get e n).getBitWidth =
      ((VectorType.get e n).getNumElements * e.getPrimitiveSizeInBits) % 2 ^ 32 ∧
    (VectorType.get e n).getBitWidth = n * e.getPrimitiveSizeInBits % 2 ^ 32 ∧
    (VectorType.get (ElemType.integerElem 32) 4).getBitWidth = 128 := by
  refine ⟨rfl, ?_, by decide⟩
  rw [VectorType.get, VectorType.getBitWidth]
  exact Nat.mod_mul_mod

end LLVMTypes
